import Mathlib

/-!
Shallow embedding of the `tvtccal` scraper (src/main.go, plus the unnamed
duplicate variant src/unnamed/part_000): the program downloads a month
calendar HTML page, extracts per-day workout listings from a table, and
renders them as iCalendar events.

Conventions of the embedding:
* An absolute instant (Go `time.Time`) is an `Int`, nanoseconds since the
  Unix epoch (1970-01-01T00:00:00 UTC), proleptic Gregorian calendar.
  Durations (Go `time.Duration`) are likewise `Int` nanoseconds.
* Fatal paths (`log.Fatal`) and Go errors are modelled as `none`.
* `Int.ediv`/`Int.emod` (Euclidean division, which is floor division for the
  positive divisors used here) implement the calendar arithmetic.
* The timezone database entry for America/Los_Angeles is external data, not
  repository source; it is modelled by the post-2007 United States rule
  (UTC-8, switching to UTC-7 from the second Sunday of March at 02:00 local
  standard time until the first Sunday of November at 02:00 local daylight
  time), applied uniformly to all years.
-/

namespace Tvtccal

set_option maxRecDepth 8000

/-- Absolute instant: nanoseconds since the Unix epoch, UTC. -/
abbrev GoTime := Int

def nsPerSec : Int := 1000000000

def minuteNs : Int := 60 * nsPerSec

def hourNs : Int := 60 * minuteNs

def dayNs : Int := 24 * hourNs

/-- Days since 1970-01-01 of the civil date y-m-d (proleptic Gregorian,
requires 1 ≤ m ≤ 12; the day may be out of range, it enters linearly). -/
def daysFromCivil (y m d : Int) : Int :=
  let y' := if m ≤ 2 then y - 1 else y
  let era := y'.ediv 400
  let yoe := y' - era * 400
  let mp := (m + 9).emod 12
  let doy := (153 * mp + 2).ediv 5 + d - 1
  let doe := yoe * 365 + yoe.ediv 4 - yoe.ediv 100 + doy
  era * 146097 + doe - 719468

/-- Civil date (year, month, day) of a day count since 1970-01-01. -/
def civilFromDays (z0 : Int) : Int × Int × Int :=
  let z := z0 + 719468
  let era := z.ediv 146097
  let doe := z - era * 146097
  let yoe := (doe - doe.ediv 1460 + doe.ediv 36524 - doe.ediv 146096).ediv 365
  let y := yoe + era * 400
  let doy := doe - (365 * yoe + yoe.ediv 4 - yoe.ediv 100)
  let mp := (5 * doy + 2).ediv 153
  let d := doy - (153 * mp + 2).ediv 5 + 1
  let m := if mp < 10 then mp + 3 else mp - 9
  (if m ≤ 2 then y + 1 else y, m, d)

/-- Day number of the first Sunday on or after day `d1`.
Day 0 (1970-01-01) was a Thursday, so day d is a Sunday iff (d+4) % 7 = 0. -/
def firstSundayFrom (d1 : Int) : Int :=
  d1 + (7 - (d1 + 4).emod 7).emod 7

/-- Day number of the second Sunday of March of year y. -/
def secondSundayMarch (y : Int) : Int :=
  firstSundayFrom (daysFromCivil y 3 1) + 7

/-- Day number of the first Sunday of November of year y. -/
def firstSundayNov (y : Int) : Int :=
  firstSundayFrom (daysFromCivil y 11 1)

/-- UTC instant (ns) at which daylight-saving time begins in year y for the
US rule: second Sunday of March, 02:00 standard time = 10:00 UTC. -/
def dstStartNs (y : Int) : Int :=
  secondSundayMarch y * dayNs + 10 * hourNs

/-- UTC instant (ns) at which daylight-saving time ends in year y for the
US rule: first Sunday of November, 02:00 daylight time = 09:00 UTC. -/
def dstEndNs (y : Int) : Int :=
  firstSundayNov y * dayNs + 9 * hourNs

def pstOffsetNs : Int := -8 * hourNs

def pdtOffsetNs : Int := -7 * hourNs

/-- Zone lookup for America/Los_Angeles at a UTC instant, mirroring Go's
`Location.lookup`: returns (offset, start of the regime, end of the regime),
all in nanoseconds. -/
def laLookup (t : GoTime) : Int × Int × Int :=
  let y := (civilFromDays (t.ediv dayNs)).1
  if t < dstStartNs y then (pstOffsetNs, dstEndNs (y - 1), dstStartNs y)
  else if t < dstEndNs y then (pdtOffsetNs, dstStartNs y, dstEndNs y)
  else (pstOffsetNs, dstEndNs y, dstStartNs (y + 1))

/-- Offset of America/Los_Angeles from UTC at instant t, in nanoseconds. -/
def laOffset (t : GoTime) : Int := (laLookup t).1

/-- Go's `time.Date(y, mo, d, h, mi, 0, 0, Location)` for the fixed
America/Los_Angeles location: normalizes the components arithmetically,
interprets them as a wall clock in the zone, and returns the absolute
instant, re-checking the offset at regime boundaries exactly as
`time.Date` does. -/
def goDate (y mo d h mi : Int) : GoTime :=
  let yc := y + (mo - 1).ediv 12
  let mc := (mo - 1).emod 12 + 1
  let unix := (daysFromCivil yc mc d * 86400 + h * 3600 + mi * 60) * nsPerSec
  let l := laLookup unix
  if l.1 ≠ 0 then
    let utc := unix - l.1
    let off := if utc < l.2.1 ∨ l.2.2 ≤ utc then (laLookup utc).1 else l.1
    unix - off
  else unix

/-- Civil date (year, month, day) of instant t as seen on the
America/Los_Angeles wall clock: Go's `t.Year()`, `t.Month()`, `t.Day()` for
a time carrying that location. -/
def laCivil (t : GoTime) : Int × Int × Int :=
  civilFromDays ((t + laOffset t).ediv dayNs)

/-- Left-pad the decimal form of n with zeros to width w. -/
def padNat (w : Nat) (n : Nat) : String :=
  let s := toString n
  String.mk (List.replicate (w - s.length) '0') ++ s

/-- Go's `t.UTC().Format("20060102T150405Z")` (RFC 2445 UTC timestamp).
Sound for instants in years 0..9999, which covers every value produced
here. -/
def formatICal (t : GoTime) : String :=
  let sec := t.ediv nsPerSec
  let days := sec.ediv 86400
  let sod := sec.emod 86400
  let c := civilFromDays days
  padNat 4 c.1.toNat ++ padNat 2 c.2.1.toNat ++ padNat 2 c.2.2.toNat ++ "T" ++
    padNat 2 (sod.ediv 3600).toNat ++ padNat 2 ((sod.emod 3600).ediv 60).toNat ++
    padNat 2 (sod.emod 60).toNat ++ "Z"

/-! ### Models of the Go standard-library string functions used -/

/-- The ASCII whitespace recognized by `strings.TrimSpace` (Go also trims a
few non-ASCII Unicode spaces, which never occur in this program's data). -/
def isGoSpace (c : Char) : Bool :=
  c = ' ' ∨ c = '\t' ∨ c = '\n' ∨ c = '\x0b' ∨ c = '\x0c' ∨ c = '\r'

/-- Go `strings.TrimSpace`. -/
def goTrim (s : String) : String :=
  String.mk ((((s.toList).dropWhile isGoSpace).reverse.dropWhile isGoSpace).reverse)

def digitVal (c : Char) : Int := (c.toNat : Int) - 48

/-- Go `strconv.Atoi`: optional sign, then one or more decimal digits and
nothing else. (Go additionally errors on 64-bit overflow; the integers in
this program are small, so overflow is not modelled.) -/
def goAtoi (s : String) : Option Int :=
  let cs := s.toList
  let p : Bool × List Char :=
    match cs with
    | '-' :: r => (true, r)
    | '+' :: r => (false, r)
    | r => (false, r)
  if p.2 = [] then none
  else if p.2.all Char.isDigit then
    some ((if p.1 then -1 else 1) * p.2.foldl (fun a c => a * 10 + digitVal c) 0)
  else none

/-- Split a character list at every occurrence of c, keeping empty
segments. -/
def splitCharList (c : Char) : List Char → List (List Char)
  | [] => [[]]
  | x :: xs =>
    let r := splitCharList c xs
    if x = c then [] :: r
    else
      match r with
      | y :: ys => (x :: y) :: ys
      | [] => [[x]]

/-- Go `strings.Split(s, sep)` for a one-character separator (every
separator this program uses — " ", ":", "\n" — is one character): the
substrings between occurrences, empties preserved, `[""]` for the empty
string. -/
def goSplit (c : Char) (s : String) : List String :=
  (splitCharList c s.toList).map String.mk

/-- Go `strings.Join(xs, sep)`. -/
def goJoin (sep : String) : List String → String
  | [] => ""
  | [x] => x
  | x :: xs => x ++ sep ++ goJoin sep xs

/-- Go `strings.Replace(s, pat, rep, 1)` for a one-character pattern:
replace the first occurrence. -/
def goReplaceFirst (s : String) (pat : Char) (rep : String) : String :=
  match goSplit pat s with
  | [] => s
  | x :: rest =>
    if rest = [] then s else x ++ rep ++ goJoin (String.mk [pat]) rest

/-- Whether pat occurs as a contiguous prefix of s. -/
def charsPrefix : List Char → List Char → Bool
  | [], _ => true
  | _ :: _, [] => false
  | a :: as, b :: bs => a = b && charsPrefix as bs

/-- Whether pat occurs contiguously anywhere in s. -/
def containsSeq (pat s : List Char) : Bool :=
  s.tails.any (charsPrefix pat)

/-! ### Model of Go `time.ParseDuration` (used only by the part_000 variant)

Faithful except that (a) 64-bit overflow is not modelled and (b) the
fractional contribution `f * (unit / scale)`, which Go computes in float64,
is computed exactly in integers; the inputs this program builds are short
enough that the two agree. -/

def durUnitNs (u : String) : Option Int :=
  if u = "ns" then some 1
  else if u = "us" ∨ u = "µs" ∨ u = "μs" then some 1000
  else if u = "ms" then some 1000000
  else if u = "s" then some nsPerSec
  else if u = "m" then some minuteNs
  else if u = "h" then some hourNs
  else none

/-- Consume leading decimal digits: (value, digit count, rest). -/
def leadingDigits : Int → Nat → List Char → Int × Nat × List Char
  | a, n, c :: cs =>
    if c.isDigit then leadingDigits (a * 10 + digitVal c) (n + 1) cs
    else (a, n, c :: cs)
  | a, n, [] => (a, n, [])

/-- Consume leading fraction digits: (value, scale, digit count, rest). -/
def leadingFrac : Int → Int → Nat → List Char → Int × Int × Nat × List Char
  | x, sc, n, c :: cs =>
    if c.isDigit then leadingFrac (x * 10 + digitVal c) (sc * 10) (n + 1) cs
    else (x, sc, n, c :: cs)
  | x, sc, n, [] => (x, sc, n, [])

def notUnitChar (c : Char) : Bool := c = '.' ∨ c.isDigit

/-- The `[int][.frac]unit` consumption loop of `time.ParseDuration`. The
fuel bounds the iteration count; each iteration consumes at least one
character, so `length + 1` fuel is always enough. -/
def parseDurLoop : Nat → List Char → Int → Option Int
  | 0, _, _ => none
  | _, [], d => some d
  | Nat.succ fuel, cs, d =>
    let pre := leadingDigits 0 0 cs
    let fr : Int × Int × Nat × List Char :=
      match pre.2.2 with
      | '.' :: cs2 => leadingFrac 0 1 0 cs2
      | r => (0, 1, 0, r)
    if pre.2.1 = 0 ∧ fr.2.2.1 = 0 then none
    else
      let uchars := fr.2.2.2.takeWhile (fun c => ¬ notUnitChar c)
      let rest := fr.2.2.2.dropWhile (fun c => ¬ notUnitChar c)
      if uchars = [] then none
      else
        match durUnitNs (String.mk uchars) with
        | none => none
        | some unit =>
          let add := pre.1 * unit +
            (if fr.1 > 0 then (fr.1 * unit).ediv fr.2.1 else 0)
          parseDurLoop fuel rest (d + add)

/-- Go `time.ParseDuration`, returning nanoseconds. -/
def goParseDuration (s : String) : Option Int :=
  let cs := s.toList
  let p : Bool × List Char :=
    match cs with
    | '-' :: r => (true, r)
    | '+' :: r => (false, r)
    | r => (false, r)
  if p.2 = ['0'] then some 0
  else if p.2 = [] then none
  else (parseDurLoop (p.2.length + 1) p.2 0).map (fun d => if p.1 then -d else d)

/-! ### The data model and the extraction pipeline -/

/-- One extracted event (struct `Workout` in both variants). -/
structure Workout where
  Summary : String
  Location : String
  Start : String
  End : String
deriving DecidableEq, Repr

/-- The inputs the XPath layer feeds to the extractor, abstracted from the
normalized HTML tree: the text of `//div[@id="main"]/table/caption` (none if
absent — `log.Fatal("failed to find month")`), and for each
`//div[@id="main"]/table/tbody/tr` the texts of its `./td` children. -/
structure HtmlDoc where
  caption : Option String
  rows : List (List String)

/-- Go's `time.Month(i).String()` table. -/
def monthName (i : Int) : String :=
  if i = 1 then "January" else if i = 2 then "February"
  else if i = 3 then "March" else if i = 4 then "April"
  else if i = 5 then "May" else if i = 6 then "June"
  else if i = 7 then "July" else if i = 8 then "August"
  else if i = 9 then "September" else if i = 10 then "October"
  else if i = 11 then "November" else if i = 12 then "December"
  else ""

/-- `parseMonth` (identical in both variants): take the caption's first
space-delimited token, trim it, and scan `for i := 1; i < 12` for a matching
month name; no match (and in particular "December", since the loop stops at
11) is fatal. -/
def parseMonth (caption : Option String) : Option Int :=
  match caption with
  | none => none
  | some val =>
    let month := goTrim ((goSplit ' ' val).getD 0 "")
    ([1, 2, 3, 4, 5, 6, 7, 8, 9, 10, 11] : List Int).find?
      (fun i => monthName i = month)

/-- `parseDayOfMonth` as in src/main.go: trim the first cell's text, split
on spaces, `Atoi` the LAST token. -/
def parseDayOfMonth (val : String) : Option Int :=
  goAtoi ((goSplit ' ' (goTrim val)).getLastD "")

/-- `parseDayOfMonth` as in src/unnamed/part_000: `Atoi` the whole trimmed
first cell's text. -/
def parseDayOfMonthAlt (val : String) : Option Int :=
  goAtoi (goTrim val)

/-- The year inference of `parseCalendar` (identical in both variants):
`year := now.Year(); if month == time.December && now.Month() == time.January
{ year -= 1 }`. -/
def resolveYear (month nowYear nowMonth : Int) : Int :=
  if month = 12 ∧ nowMonth = 1 then nowYear - 1 else nowYear

/-- The time-field parsing of one block in src/main.go's `parseWorkouts`,
applied to line 9: split the trimmed line on spaces into exactly two parts,
split the first on ":" into exactly two `Atoi`-parseable integers, and
require the second part to be "PM" (add 12 to the hour) or "AM" (leave it);
any other shape aborts the cell. No range check is applied to the values. -/
def parseBlockTime (l9 : String) : Option (Int × Int) :=
  let parts := goSplit ' ' (goTrim l9)
  if parts.length ≠ 2 then none
  else
    let hourmins := goSplit ':' (parts.getD 0 "")
    if hourmins.length ≠ 2 then none
    else
      match goAtoi (hourmins.getD 0 ""), goAtoi (hourmins.getD 1 "") with
      | some hour, some min =>
        if parts.getD 1 "" = "PM" then some (hour + 12, min)
        else if parts.getD 1 "" = "AM" then some (hour, min)
        else none
      | _, _ => none

/-- The loop body of src/main.go's `parseWorkouts` for one 10-line block
(lines l2, l3, l5, l7, l9 are the block's lines at those indices): build the
Workout, with the start computed by `time.Date` from the cursor's date
components in the zone and the parsed hour/minute, and the end 90 minutes
later; `none` models the `return nil` paths. -/
def blockWorkout (base : GoTime) (l2 l3 l5 l7 l9 : String) : Option Workout :=
  match parseBlockTime l9 with
  | none => none
  | some hm =>
    let c := laCivil base
    let start := goDate c.1 c.2.1 c.2.2 hm.1 hm.2
    some { Summary := goTrim l2
           Location := goTrim (goJoin ", " [goTrim l3, goTrim l5, goTrim l7])
           Start := formatICal start
           End := formatICal (start + 90 * minuteNs) }

/-- The `for len(lines) >= 11` loop of src/main.go's `parseWorkouts`: `acc`
is the `workouts` slice built so far; a malformed block returns `nil`,
discarding `acc`; otherwise 10 lines are consumed and the loop continues. -/
def parseWorkoutsAux (base : GoTime) : List String → List Workout → List Workout
  | _l0 :: _l1 :: l2 :: l3 :: _l4 :: l5 :: _l6 :: l7 :: _l8 :: l9 :: rest, acc =>
    match rest with
    | [] => acc
    | _ :: _ =>
      match blockWorkout base l2 l3 l5 l7 l9 with
      | none => []
      | some w => parseWorkoutsAux base rest (acc ++ [w])
  | _, acc => acc

/-- src/main.go's `parseWorkouts` on the cell text already split into
lines. -/
def parseWorkoutsLines (base : GoTime) (lines : List String) : List Workout :=
  parseWorkoutsAux base lines []

/-- src/main.go's `parseWorkouts`: split the cell's text on newlines and run
the block loop. -/
def parseWorkouts (base : GoTime) (cell : String) : List Workout :=
  parseWorkoutsLines base (goSplit '\n' cell)

/-- The loop body of part_000's `parseWorkouts` for one 10-line block: the
time is parsed by replacing the first ":" with "h", appending "m", and
running `time.ParseDuration`; the duration (plus 12h for "PM") is added to
the cursor instant directly. -/
def blockWorkoutAlt (base : GoTime) (l2 l3 l5 l7 l9 : String) : Option Workout :=
  let parts := goSplit ' ' (goTrim l9)
  if parts.length ≠ 2 then none
  else
    match goParseDuration (goReplaceFirst (parts.getD 0 "") ':' "h" ++ "m") with
    | none => none
    | some d =>
      let start0 := base + d
      let start : Option GoTime :=
        if parts.getD 1 "" = "PM" then some (start0 + 12 * hourNs)
        else if parts.getD 1 "" = "AM" then some start0
        else none
      match start with
      | none => none
      | some st =>
        some { Summary := goTrim l2
               Location := goTrim (goJoin ", " [goTrim l3, goTrim l5, goTrim l7])
               Start := formatICal st
               End := formatICal (st + 90 * minuteNs) }

/-- The block loop of part_000's `parseWorkouts`. -/
def parseWorkoutsAuxAlt (base : GoTime) : List String → List Workout → List Workout
  | _l0 :: _l1 :: l2 :: l3 :: _l4 :: l5 :: _l6 :: l7 :: _l8 :: l9 :: rest, acc =>
    match rest with
    | [] => acc
    | _ :: _ =>
      match blockWorkoutAlt base l2 l3 l5 l7 l9 with
      | none => []
      | some w => parseWorkoutsAuxAlt base rest (acc ++ [w])
  | _, acc => acc

/-- part_000's `parseWorkouts`. -/
def parseWorkoutsAlt (base : GoTime) (cell : String) : List Workout :=
  parseWorkoutsAuxAlt base (goSplit '\n' cell) []

/-- `parseWorkoutRow` (src/main.go): iterate the row's `td` cells, collect
each cell's workouts, and advance the shared cursor by `24 * time.Hour`
after every cell; returns the appended workouts and the final cursor (the
embedding of the `*base` out-parameter). -/
def parseWorkoutRow (base : GoTime) : List String → List Workout × GoTime
  | [] => ([], base)
  | c :: cs =>
    let ws := parseWorkouts base c
    let p := parseWorkoutRow (base + 24 * hourNs) cs
    (ws ++ p.1, p.2)

/-- `parseWorkoutRow` of part_000 (same shape, different cell parser). -/
def parseWorkoutRowAlt (base : GoTime) : List String → List Workout × GoTime
  | [] => ([], base)
  | c :: cs =>
    let ws := parseWorkoutsAlt base c
    let p := parseWorkoutRowAlt (base + 24 * hourNs) cs
    (ws ++ p.1, p.2)

/-- The `tr` loop of src/main.go's `parseCalendar`: row 0 supplies the
day-of-month ("failed to find day" when it has no `td`, fatal on parse
failure) and anchors the cursor at local midnight; odd-indexed rows are
workout rows; the cursor threads through unchanged otherwise. Returns the
workouts and the final cursor. -/
def processRows (y mo : Int) : Nat → GoTime → List (List String) → Option (List Workout × GoTime)
  | _, base, [] => some ([], base)
  | i, base, r :: rest =>
    if i = 0 then
      match r.head? with
      | none => none
      | some c =>
        match parseDayOfMonth c with
        | none => none
        | some day => processRows y mo (i + 1) (goDate y mo day 0 0) rest
    else if i % 2 = 1 then
      let p := parseWorkoutRow base r
      match processRows y mo (i + 1) p.2 rest with
      | none => none
      | some q => some (p.1 ++ q.1, q.2)
    else processRows y mo (i + 1) base rest

/-- The `tr` loop of part_000's `parseCalendar` (day parsed from the whole
trimmed cell text; the `.UTC()` on the constructed date changes only the
presentation location, not the instant). -/
def processRowsAlt (y mo : Int) : Nat → GoTime → List (List String) → Option (List Workout × GoTime)
  | _, base, [] => some ([], base)
  | i, base, r :: rest =>
    if i = 0 then
      match r.head? with
      | none => none
      | some c =>
        match parseDayOfMonthAlt c with
        | none => none
        | some day => processRowsAlt y mo (i + 1) (goDate y mo day 0 0) rest
    else if i % 2 = 1 then
      let p := parseWorkoutRowAlt base r
      match processRowsAlt y mo (i + 1) p.2 rest with
      | none => none
      | some q => some (p.1 ++ q.1, q.2)
    else processRowsAlt y mo (i + 1) base rest

/-- src/main.go's `parseCalendar`, with run time represented by the local
wall-clock year and month of `time.Now()`. -/
def parseCalendar (nowYear nowMonth : Int) (doc : HtmlDoc) : Option (List Workout) :=
  match parseMonth doc.caption with
  | none => none
  | some month =>
    (processRows (resolveYear month nowYear nowMonth) month 0 0 doc.rows).map
      (fun p => p.1)

/-- part_000's `parseCalendar`. -/
def parseCalendarAlt (nowYear nowMonth : Int) (doc : HtmlDoc) : Option (List Workout) :=
  match parseMonth doc.caption with
  | none => none
  | some month =>
    (processRowsAlt (resolveYear month nowYear nowMonth) month 0 0 doc.rows).map
      (fun p => p.1)

/-- Number of day cells contained in the workout (odd-indexed) rows of a
row list whose first row carries absolute index `i`. -/
def oddCells : Nat → List (List String) → Nat
  | _, [] => 0
  | i, r :: rest => (if i % 2 = 1 then r.length else 0) + oddCells (i + 1) rest

/-! ### The renderer (src/main.go's `ICalTemplate` and `writeCalendar`) -/

/-- The `{{range .}}...{{end}}` body of src/main.go's `ICalTemplate` for one
workout; `now` is the value of the template's `now` function (the render
wall clock). -/
def renderEvent (now : String) (w : Workout) : String :=
  "BEGIN:VEVENT\nTRANSP:TRANSPARENT\nDTSTART:" ++ w.Start ++
    "\nDTEND:" ++ w.End ++ "\nSUMMARY:" ++ w.Summary ++
    "\nLOCATION:" ++ w.Location ++ "\nUID:" ++ w.Start ++ "-" ++ w.End ++
    "@trivalleytriclub.com\nSEQUENCE:0\nDTSTAMP:" ++ now ++ "\nEND:VEVENT\n"

/-- The text `writeCalendar` renders: src/main.go's `ICalTemplate` expanded
over the workout list. -/
def renderCalendar (now : String) (ws : List Workout) : String :=
  "BEGIN:VCALENDAR\nVERSION:2.0\nPRODID:-//Tri-Valley Triathlon Club//trivalleytriclub.com//\nMETHOD:PUBLISH\n" ++
    String.join (ws.map (renderEvent now)) ++ "END:VCALENDAR"

/-! ### Helper lemmas -/

theorem length10_shape (lines : List String) (h : lines.length = 10) :
    ∃ b0 b1 b2 b3 b4 b5 b6 b7 b8 b9,
      lines = [b0, b1, b2, b3, b4, b5, b6, b7, b8, b9] := by
  rcases lines with _ | ⟨b0, t⟩
  · simp at h
  rcases t with _ | ⟨b1, t⟩
  · simp at h
  rcases t with _ | ⟨b2, t⟩
  · simp at h
  rcases t with _ | ⟨b3, t⟩
  · simp at h
  rcases t with _ | ⟨b4, t⟩
  · simp at h
  rcases t with _ | ⟨b5, t⟩
  · simp at h
  rcases t with _ | ⟨b6, t⟩
  · simp at h
  rcases t with _ | ⟨b7, t⟩
  · simp at h
  rcases t with _ | ⟨b8, t⟩
  · simp at h
  rcases t with _ | ⟨b9, t⟩
  · simp at h
  rcases t with _ | ⟨b10, t⟩
  · exact ⟨b0, b1, b2, b3, b4, b5, b6, b7, b8, b9, rfl⟩
  · simp only [List.length_cons] at h
    omega

theorem parseWorkoutsAux_cons10_cons (base : GoTime)
    (l0 l1 l2 l3 l4 l5 l6 l7 l8 l9 x : String) (xs : List String)
    (acc : List Workout) :
    parseWorkoutsAux base (l0 :: l1 :: l2 :: l3 :: l4 :: l5 :: l6 :: l7 :: l8 :: l9 :: x :: xs) acc =
      match blockWorkout base l2 l3 l5 l7 l9 with
      | none => []
      | some w => parseWorkoutsAux base (x :: xs) (acc ++ [w]) := rfl

theorem parseWorkoutsAux_cons10_nil (base : GoTime)
    (l0 l1 l2 l3 l4 l5 l6 l7 l8 l9 : String) (acc : List Workout) :
    parseWorkoutsAux base [l0, l1, l2, l3, l4, l5, l6, l7, l8, l9] acc = acc := rfl

theorem blockWorkout_of_time (base : GoTime) (l2 l3 l5 l7 l9 : String)
    (hm : Int × Int) (h : parseBlockTime l9 = some hm) :
    blockWorkout base l2 l3 l5 l7 l9 =
      some { Summary := goTrim l2
             Location := goTrim (goJoin ", " [goTrim l3, goTrim l5, goTrim l7])
             Start := formatICal (goDate (laCivil base).1 (laCivil base).2.1 (laCivil base).2.2 hm.1 hm.2)
             End := formatICal (goDate (laCivil base).1 (laCivil base).2.1 (laCivil base).2.2 hm.1 hm.2 + 90 * minuteNs) } := by
  unfold blockWorkout
  rw [h]

theorem blockWorkout_none (base : GoTime) (l2 l3 l5 l7 l9 : String)
    (h : parseBlockTime l9 = none) :
    blockWorkout base l2 l3 l5 l7 l9 = none := by
  unfold blockWorkout
  rw [h]

theorem parseBlockTime_eq (l9 t mer hs ms : String) (h mi : Int)
    (hparts : goSplit ' ' (goTrim l9) = [t, mer])
    (hcolon : goSplit ':' t = [hs, ms])
    (hh : goAtoi hs = some h) (hm : goAtoi ms = some mi)
    (hmer : mer = "AM" ∨ mer = "PM") :
    parseBlockTime l9 = some (h + (if mer = "PM" then 12 else 0), mi) := by
  have hne : ¬("AM" : String) = "PM" := by decide
  simp only [parseBlockTime, hparts, List.length_cons, List.length_nil,
    List.getD_cons_zero, List.getD_cons_succ, ne_eq, hcolon, hh, hm]
  norm_num
  rcases hmer with hA | hP
  · subst hA
    rw [if_neg hne, if_pos rfl]
    norm_num
    exact hne
  · subst hP
    rw [if_pos rfl, if_pos rfl]

theorem parseWorkoutsAux_cons10_some (base : GoTime)
    (l0 l1 l2 l3 l4 l5 l6 l7 l8 l9 x : String) (xs : List String)
    (acc : List Workout) (w : Workout)
    (hw : blockWorkout base l2 l3 l5 l7 l9 = some w) :
    parseWorkoutsAux base (l0 :: l1 :: l2 :: l3 :: l4 :: l5 :: l6 :: l7 :: l8 :: l9 :: x :: xs) acc =
      parseWorkoutsAux base (x :: xs) (acc ++ [w]) := by
  rw [parseWorkoutsAux_cons10_cons, hw]

theorem parseWorkoutsAux_cons10_bad (base : GoTime)
    (l0 l1 l2 l3 l4 l5 l6 l7 l8 l9 x : String) (xs : List String)
    (acc : List Workout)
    (hw : blockWorkout base l2 l3 l5 l7 l9 = none) :
    parseWorkoutsAux base (l0 :: l1 :: l2 :: l3 :: l4 :: l5 :: l6 :: l7 :: l8 :: l9 :: x :: xs) acc = [] := by
  rw [parseWorkoutsAux_cons10_cons, hw]

theorem parseWorkoutsAux_all_blocks (bs : List (List String)) :
    ∀ (base : GoTime) (acc : List Workout) (mal rest : List String),
    (∀ b ∈ bs, b.length = 10) →
    (∀ b ∈ bs, (parseBlockTime (b.getD 9 "")).isSome = true) →
    mal.length = 10 → parseBlockTime (mal.getD 9 "") = none → rest ≠ [] →
    parseWorkoutsAux base (bs.flatten ++ (mal ++ rest)) acc = [] := by
  induction bs with
  | nil =>
    intro base acc mal rest _ _ hmal ht hrest
    obtain ⟨b0, b1, b2, b3, b4, b5, b6, b7, b8, b9, rfl⟩ := length10_shape mal hmal
    have ht9 : parseBlockTime b9 = none := by simpa [List.getD] using ht
    show parseWorkoutsAux base (b0 :: b1 :: b2 :: b3 :: b4 :: b5 :: b6 :: b7 :: b8 :: b9 :: rest) acc = []
    rcases rest with _ | ⟨x, xs⟩
    · exact absurd rfl hrest
    · exact parseWorkoutsAux_cons10_bad base b0 b1 b2 b3 b4 b5 b6 b7 b8 b9 x xs acc
        (blockWorkout_none base b2 b3 b5 b7 b9 ht9)
  | cons b bs ih =>
    intro base acc mal rest hlen hok hmal ht hrest
    have hb : b.length = 10 := hlen b (by simp)
    obtain ⟨b0, b1, b2, b3, b4, b5, b6, b7, b8, b9, rfl⟩ := length10_shape b hb
    have hok9 : (parseBlockTime b9).isSome = true := by
      have := hok _ (List.mem_cons_self _ _)
      simpa [List.getD] using this
    obtain ⟨pr, hpr⟩ := Option.isSome_iff_exists.mp hok9
    have hw := blockWorkout_of_time base b2 b3 b5 b7 b9 pr hpr
    show parseWorkoutsAux base
      (b0 :: b1 :: b2 :: b3 :: b4 :: b5 :: b6 :: b7 :: b8 :: b9 :: (bs.flatten ++ (mal ++ rest))) acc = []
    rcases hjoin : bs.flatten ++ (mal ++ rest) with _ | ⟨x, xs⟩
    · exfalso
      rw [List.append_eq_nil, List.append_eq_nil] at hjoin
      rw [hjoin.2.1] at hmal
      simp at hmal
    · rw [parseWorkoutsAux_cons10_some base b0 b1 b2 b3 b4 b5 b6 b7 b8 b9 x xs acc _ hw, ← hjoin]
      exact ih base (acc ++ [_]) mal rest
        (fun b hb => hlen b (List.mem_cons_of_mem _ hb))
        (fun b hb => hok b (List.mem_cons_of_mem _ hb)) hmal ht hrest

theorem parseWorkoutRow_cursor (cells : List String) : ∀ base : GoTime,
    (parseWorkoutRow base cells).2 = base + (cells.length : Int) * (24 * hourNs) := by
  induction cells with
  | nil => intro base; simp [parseWorkoutRow]
  | cons c cs ih =>
    intro base
    simp only [parseWorkoutRow]
    rw [ih]
    simp only [List.length_cons]
    push_cast
    ring

theorem processRows_cursor (rows : List (List String)) :
    ∀ (i : Nat) (base : GoTime) (y mo : Int) (ws : List Workout) (b' : GoTime),
      1 ≤ i → processRows y mo i base rows = some (ws, b') →
      b' = base + (oddCells i rows : Int) * (24 * hourNs) := by
  induction rows with
  | nil =>
    intro i base y mo ws b' hi hp
    simp only [processRows, Option.some.injEq] at hp
    have hb : b' = base := by
      have := congrArg Prod.snd hp
      exact (by simpa using this : base = b').symm
    simp [oddCells, hb]
  | cons r rest ih =>
    intro i base y mo ws b' hi hp
    have hi0 : ¬ i = 0 := by omega
    by_cases hodd : i % 2 = 1
    · simp only [processRows, if_neg hi0, if_pos hodd] at hp
      rcases hq : processRows y mo (i + 1) (parseWorkoutRow base r).2 rest with _ | q
      · rw [hq] at hp; simp at hp
      · rw [hq] at hp
        simp only [Option.some.injEq] at hp
        have hb : q.2 = b' := by
          have := congrArg Prod.snd hp
          simpa using this
        have hrec := ih (i + 1) (parseWorkoutRow base r).2 y mo q.1 q.2 (by omega) (by rw [hq])
        rw [parseWorkoutRow_cursor] at hrec
        rw [← hb, hrec]
        simp only [oddCells, if_pos hodd]
        push_cast
        ring
    · simp only [processRows, if_neg hi0, if_neg hodd] at hp
      have hrec := ih (i + 1) base y mo ws b' (by omega) hp
      rw [hrec]
      simp only [oddCells, if_neg hodd]
      push_cast
      ring

/-! ### Claim theorems -/

/-- C5. Date-cursor advance: within one workout row the cursor is advanced
by exactly 24 hours per child cell regardless of how many workouts each cell
yields, so after a row of N cells the cursor equals the cursor before plus
N 24-hour days; and across the whole `tr` loop (absolute row index ≥ 1,
i.e. after row 0 anchored it) the single threaded cursor ends at its value
plus 24 hours for every cell of every odd-indexed workout row — it is never
reset per row. -/
theorem cursor_advance :
    (∀ (base : GoTime) (cells : List String),
      (parseWorkoutRow base cells).2 = base + (cells.length : Int) * (24 * hourNs)) ∧
    (∀ (y mo : Int) (i : Nat) (base : GoTime) (rows : List (List String))
        (ws : List Workout) (b' : GoTime),
      1 ≤ i → processRows y mo i base rows = some (ws, b') →
      b' = base + (oddCells i rows : Int) * (24 * hourNs)) :=
  ⟨fun base cells => parseWorkoutRow_cursor cells base,
   fun y mo i base rows ws b' hi hp => processRows_cursor rows i base y mo ws b' hi hp⟩

/-- C5 witness: a row of two cells advances the cursor by 2 days, and
three rows of 2, 1 and 1 cells starting at index 1 (odd, even, odd) advance
a cursor starting at 0 by exactly 3 days = 259200000000000 ns. -/
theorem cursor_advance_witness :
    (parseWorkoutRow 0 ["x", "y"]).2 = 0 + ((2 : Nat) : Int) * (24 * hourNs) ∧
    (259200000000000 : Int) = 0 + ((oddCells 1 [["x", "y"], ["z"], ["w"]] : Nat) : Int) * (24 * hourNs) :=
  ⟨cursor_advance.1 0 ["x", "y"],
   cursor_advance.2 2024 6 1 0 [["x", "y"], ["z"], ["w"]] [] 259200000000000
     (by decide) (by decide)⟩

/-- C2. Malformed-block short-circuit: a cell's line list consisting of any
number of well-formed 10-line blocks followed by a 10-line block whose time
line is malformed (`parseBlockTime` rejects it: wrong token count, bad
hour:minute shape, non-integer fields, or unknown meridiem) and at least one
further line (so the `≥ 11` guard lets the loop reach the bad block) parses
to ZERO workouts — the well-formed prefix is discarded.  The second conjunct
records that a row keeps processing its remaining cells regardless of what
one cell returned, so the failure is local to the cell. -/
theorem parseWorkouts_malformed_block_discards_cell :
    (∀ (base : GoTime) (bs : List (List String)) (mal rest : List String),
      (∀ b ∈ bs, b.length = 10) →
      (∀ b ∈ bs, (parseBlockTime (b.getD 9 "")).isSome = true) →
      mal.length = 10 → parseBlockTime (mal.getD 9 "") = none → rest ≠ [] →
      parseWorkoutsLines base (bs.flatten ++ (mal ++ rest)) = []) ∧
    (∀ (base : GoTime) (c : String) (cs : List String),
      (parseWorkoutRow base (c :: cs)).1 =
        parseWorkouts base c ++ (parseWorkoutRow (base + 24 * hourNs) cs).1) :=
  ⟨fun base bs mal rest h1 h2 h3 h4 h5 =>
    parseWorkoutsAux_all_blocks bs base [] mal rest h1 h2 h3 h4 h5,
   fun _ _ _ => rfl⟩

/-- C2 witness: two well-formed blocks followed by a block with the
malformed time line "bad time here" and a trailing line yield zero workouts
for the whole cell. -/
theorem parseWorkouts_malformed_block_discards_cell_witness :
    parseWorkoutsLines 0
      (List.flatten [["1", "2", "Swim", "A", "5", "B", "7", "C", "9", "6:00 AM"],
                     ["1", "2", "Run", "A", "5", "B", "7", "C", "9", "7:30 PM"]] ++
        (["1", "2", "Yoga", "A", "5", "B", "7", "C", "9", "bad time here"] ++ ["t"])) = [] :=
  parseWorkouts_malformed_block_discards_cell.1 0
    [["1", "2", "Swim", "A", "5", "B", "7", "C", "9", "6:00 AM"],
     ["1", "2", "Run", "A", "5", "B", "7", "C", "9", "7:30 PM"]]
    ["1", "2", "Yoga", "A", "5", "B", "7", "C", "9", "bad time here"] ["t"]
    (by decide) (by decide) (by decide) (by decide) (by decide)

/-- C3 counterexample: the claim promises one workout for every 11-line
cell, but an 11-line cell whose consumed block has a malformed time line
yields zero workouts. -/
theorem parseWorkouts_eleven_malformed_lines_yield_none :
    (["a", "b", "S", "A", "p", "B", "q", "C", "r", "bad", "t"] : List String).length = 11 ∧
    parseWorkoutsLines 0 ["a", "b", "S", "A", "p", "B", "q", "C", "r", "bad", "t"] = [] := by
  decide

/-- C3 (amended). Block-count property: blocks are consumed only while at
least 11 lines remain, so 10 lines always yield 0 workouts; 11 lines whose
consumed block has a well-formed time line yield exactly 1 workout
(consuming lines 0-9, leaving 1 line); 21 lines whose two consumed blocks
have well-formed time lines yield exactly 2 workouts.  (The well-formedness
provisos are forced by the malformed-block short-circuit.) -/
theorem parseWorkouts_block_count (base : GoTime) (lines : List String) :
    (lines.length = 10 → parseWorkoutsLines base lines = []) ∧
    (lines.length = 11 → (parseBlockTime (lines.getD 9 "")).isSome = true →
      (parseWorkoutsLines base lines).length = 1) ∧
    (lines.length = 21 → (parseBlockTime (lines.getD 9 "")).isSome = true →
      (parseBlockTime ((lines.drop 10).getD 9 "")).isSome = true →
      (parseWorkoutsLines base lines).length = 2) := by
  refine ⟨?_, ?_, ?_⟩
  · intro h10
    obtain ⟨b0, b1, b2, b3, b4, b5, b6, b7, b8, b9, rfl⟩ := length10_shape lines h10
    rfl
  · intro h11 ht
    have h10 : (lines.take 10).length = 10 := by rw [List.length_take]; omega
    obtain ⟨b0, b1, b2, b3, b4, b5, b6, b7, b8, b9, hEq⟩ := length10_shape (lines.take 10) h10
    have hdlen : (lines.drop 10).length = 1 := by rw [List.length_drop]; omega
    rcases hx : lines.drop 10 with _ | ⟨x, xs⟩
    · rw [hx] at hdlen; simp at hdlen
    have hxs : xs = [] := by
      rw [hx] at hdlen
      simpa using hdlen
    subst hxs
    have hl : lines = [b0, b1, b2, b3, b4, b5, b6, b7, b8, b9, x] := by
      have h := (List.take_append_drop 10 lines).symm
      rw [hEq, hx] at h
      simpa using h
    rw [hl] at ht ⊢
    have ht9 : (parseBlockTime b9).isSome = true := by simpa [List.getD] using ht
    obtain ⟨pr, hpr⟩ := Option.isSome_iff_exists.mp ht9
    have hw := blockWorkout_of_time base b2 b3 b5 b7 b9 pr hpr
    show (parseWorkoutsAux base (b0 :: b1 :: b2 :: b3 :: b4 :: b5 :: b6 :: b7 :: b8 :: b9 :: x :: []) []).length = 1
    rw [parseWorkoutsAux_cons10_some base b0 b1 b2 b3 b4 b5 b6 b7 b8 b9 x [] [] _ hw]
    rfl
  · intro h21 ht ht2
    have h10 : (lines.take 10).length = 10 := by rw [List.length_take]; omega
    obtain ⟨b0, b1, b2, b3, b4, b5, b6, b7, b8, b9, hEq⟩ := length10_shape (lines.take 10) h10
    have h10b : ((lines.drop 10).take 10).length = 10 := by
      rw [List.length_take, List.length_drop]; omega
    obtain ⟨c0, c1, c2, c3, c4, c5, c6, c7, c8, c9, hEq2⟩ :=
      length10_shape ((lines.drop 10).take 10) h10b
    have hdlen : ((lines.drop 10).drop 10).length = 1 := by
      rw [List.length_drop, List.length_drop]; omega
    rcases hx : (lines.drop 10).drop 10 with _ | ⟨x, xs⟩
    · rw [hx] at hdlen; simp at hdlen
    have hxs : xs = [] := by
      rw [hx] at hdlen
      simpa using hdlen
    subst hxs
    have hd : lines.drop 10 = [c0, c1, c2, c3, c4, c5, c6, c7, c8, c9, x] := by
      have h := (List.take_append_drop 10 (lines.drop 10)).symm
      rw [hEq2, hx] at h
      simpa using h
    have hl : lines = [b0, b1, b2, b3, b4, b5, b6, b7, b8, b9,
        c0, c1, c2, c3, c4, c5, c6, c7, c8, c9, x] := by
      have h := (List.take_append_drop 10 lines).symm
      rw [hEq, hd] at h
      simpa using h
    rw [hd] at ht2
    rw [hl] at ht ⊢
    have ht9 : (parseBlockTime b9).isSome = true := by simpa [List.getD] using ht
    have htc9 : (parseBlockTime c9).isSome = true := by simpa [List.getD] using ht2
    obtain ⟨pr, hpr⟩ := Option.isSome_iff_exists.mp ht9
    obtain ⟨pr2, hpr2⟩ := Option.isSome_iff_exists.mp htc9
    have hw := blockWorkout_of_time base b2 b3 b5 b7 b9 pr hpr
    have hw2 := blockWorkout_of_time base c2 c3 c5 c7 c9 pr2 hpr2
    show (parseWorkoutsAux base (b0 :: b1 :: b2 :: b3 :: b4 :: b5 :: b6 :: b7 :: b8 :: b9 ::
      c0 :: c1 :: c2 :: c3 :: c4 :: c5 :: c6 :: c7 :: c8 :: c9 :: x :: []) []).length = 2
    rw [parseWorkoutsAux_cons10_some base b0 b1 b2 b3 b4 b5 b6 b7 b8 b9 c0
        (c1 :: c2 :: c3 :: c4 :: c5 :: c6 :: c7 :: c8 :: c9 :: x :: []) [] _ hw]
    rw [parseWorkoutsAux_cons10_some base c0 c1 c2 c3 c4 c5 c6 c7 c8 c9 x [] _ _ hw2]
    rfl

/-- C3 witness: a well-formed 11-line cell yields exactly 1 workout and a
well-formed 21-line cell exactly 2. -/
theorem parseWorkouts_block_count_witness :
    (parseWorkoutsLines 0 ["a", "b", "S", "A", "p", "B", "q", "C", "r", "6:00 AM", "t"]).length = 1 ∧
    (parseWorkoutsLines 0 ["a", "b", "S", "A", "p", "B", "q", "C", "r", "6:00 AM",
      "a2", "b2", "S2", "A2", "p2", "B2", "q2", "C2", "r2", "7:00 PM", "t"]).length = 2 :=
  ⟨(parseWorkouts_block_count 0 _).2.1 (by decide) (by decide),
   (parseWorkouts_block_count 0 _).2.2 (by decide) (by decide) (by decide)⟩

/-- C4. Time decoding: whenever a block's line 9 trims and splits into two
space-separated tokens "h:m" and a meridiem "AM" or "PM" with integer h and
m, the block yields a workout whose start is the cursor's LA-wall-clock
year/month/day combined with hour h (h+12 for PM, unchanged for AM — no
12:xx special case) and minute m, interpreted as a wall-clock instant in
America/Los_Angeles and converted to UTC (`goDate`), and whose end is
exactly 90 minutes after the start.  These blocks are exactly the ones
`parseWorkoutsAux` consumes via `blockWorkout`. -/
theorem blockWorkout_time_decoding (base : GoTime) (l2 l3 l5 l7 l9 t mer hs ms : String)
    (h mi : Int)
    (hparts : goSplit ' ' (goTrim l9) = [t, mer])
    (hcolon : goSplit ':' t = [hs, ms])
    (hh : goAtoi hs = some h) (hm : goAtoi ms = some mi)
    (hmer : mer = "AM" ∨ mer = "PM") :
    blockWorkout base l2 l3 l5 l7 l9 =
      some { Summary := goTrim l2
             Location := goTrim (goJoin ", " [goTrim l3, goTrim l5, goTrim l7])
             Start := formatICal (goDate (laCivil base).1 (laCivil base).2.1 (laCivil base).2.2
               (h + (if mer = "PM" then 12 else 0)) mi)
             End := formatICal (goDate (laCivil base).1 (laCivil base).2.1 (laCivil base).2.2
               (h + (if mer = "PM" then 12 else 0)) mi + 90 * minuteNs) } := by
  have h1 := parseBlockTime_eq l9 t mer hs ms h mi hparts hcolon hh hm hmer
  exact blockWorkout_of_time base l2 l3 l5 l7 l9 (h + (if mer = "PM" then 12 else 0), mi) h1

/-- C4 witness: with the cursor at LA midnight of 2024-06-15 (PDT, UTC-7),
"9:30 AM" decodes to 09:30 local = 16:30 UTC and "9:30 PM" to 21:30 local =
04:30 UTC next day; both ends are 90 minutes later. -/
theorem blockWorkout_time_decoding_witness :
    blockWorkout (goDate 2024 6 15 0 0) "Swim Practice" "123 Main St" "Pleasanton" "CA" "9:30 AM" =
      some ⟨"Swim Practice", "123 Main St, Pleasanton, CA", "20240615T163000Z", "20240615T180000Z"⟩ ∧
    blockWorkout (goDate 2024 6 15 0 0) "Run" "A" "B" "C" "9:30 PM" =
      some ⟨"Run", "A, B, C", "20240616T043000Z", "20240616T060000Z"⟩ := by
  constructor
  · exact (blockWorkout_time_decoding (goDate 2024 6 15 0 0) "Swim Practice" "123 Main St"
      "Pleasanton" "CA" "9:30 AM" "9:30" "AM" "9" "30" 9 30
      (by decide) (by decide) (by decide) (by decide) (Or.inl rfl)).trans (by decide)
  · exact (blockWorkout_time_decoding (goDate 2024 6 15 0 0) "Run" "A" "B" "C"
      "9:30 PM" "9:30" "PM" "9" "30" 9 30
      (by decide) (by decide) (by decide) (by decide) (Or.inr rfl)).trans (by decide)

/-- C9. Hour and minute values are not range-checked: any two
`Atoi`-parseable integer fields joined by one colon (25:99, negatives, ...)
followed by "AM"/"PM" are accepted, and the emitted workout's timestamp is
the arithmetic normalization of those values (`goDate` carries out-of-range
hours/minutes into the date).  Rejection happens only for structural
malformation, which `parseBlockTime` alone decides. -/
theorem time_values_not_range_checked (base : GoTime) (l2 l3 l5 l7 l9 t mer hs ms : String)
    (h mi : Int)
    (hparts : goSplit ' ' (goTrim l9) = [t, mer])
    (hcolon : goSplit ':' t = [hs, ms])
    (hh : goAtoi hs = some h) (hm : goAtoi ms = some mi)
    (hmer : mer = "AM" ∨ mer = "PM") :
    ∃ w, blockWorkout base l2 l3 l5 l7 l9 = some w ∧
      w.Start = formatICal (goDate (laCivil base).1 (laCivil base).2.1 (laCivil base).2.2
        (h + (if mer = "PM" then 12 else 0)) mi) := by
  have h1 := parseBlockTime_eq l9 t mer hs ms h mi hparts hcolon hh hm hmer
  exact ⟨_, blockWorkout_of_time base l2 l3 l5 l7 l9 (h + (if mer = "PM" then 12 else 0), mi) h1, rfl⟩

/-- C9 witness: "25:99 PM" is accepted; 25+12 = 37 hours and 99 minutes
from LA midnight of 2024-06-15 normalize to 2024-06-16 14:39 local =
21:39 UTC. -/
theorem time_values_not_range_checked_witness :
    (blockWorkout (goDate 2024 6 15 0 0) "S" "A" "B" "C" "25:99 PM").isSome = true ∧
    Option.map (fun w => w.Start) (blockWorkout (goDate 2024 6 15 0 0) "S" "A" "B" "C" "25:99 PM") =
      some "20240616T213900Z" := by
  obtain ⟨w, hw, hs⟩ := time_values_not_range_checked (goDate 2024 6 15 0 0) "S" "A" "B" "C"
    "25:99 PM" "25:99" "PM" "25" "99" 25 99
    (by decide) (by decide) (by decide) (by decide) (Or.inr rfl)
  refine ⟨by rw [hw]; rfl, ?_⟩
  rw [hw]
  exact congrArg some (hs.trans (by decide))

/-- C1. Month resolution is claimed to accept all twelve English month
names, but the scan `for i := 1; i < 12` in `parseMonth` only compares
against January..November, so the caption "December 2024" hits the
`log.Fatalf("invalid month: ...")` path (modelled `none`) even though the
December/January year-rollback branch of `parseCalendar` shows December
captions were intended to work.  The other eleven month names resolve to
their 1-11 index, a missing caption is fatal, and an unknown token is
fatal. -/
theorem parseMonth_december_is_fatal :
    parseMonth (some "December 2024") = none ∧
    parseMonth (some "January 2024") = some 1 ∧
    parseMonth (some "February 2024") = some 2 ∧
    parseMonth (some "March 2024") = some 3 ∧
    parseMonth (some "April 2024") = some 4 ∧
    parseMonth (some "May 2024") = some 5 ∧
    parseMonth (some "June 2024") = some 6 ∧
    parseMonth (some "July 2024") = some 7 ∧
    parseMonth (some "August 2024") = some 8 ∧
    parseMonth (some "September 2024") = some 9 ∧
    parseMonth (some "October 2024") = some 10 ∧
    parseMonth (some "November 2024") = some 11 ∧
    parseMonth (some "Dec 2024") = none ∧
    parseMonth none = none := by
  decide

/-- C6. Year resolution: the resolved year is the wall-clock year, minus one
exactly when the resolved month is December (12) and the wall-clock month is
January (1). -/
theorem year_rollback (month nowYear nowMonth : Int) :
    (month = 12 → nowMonth = 1 → resolveYear month nowYear nowMonth = nowYear - 1) ∧
    (¬(month = 12 ∧ nowMonth = 1) → resolveYear month nowYear nowMonth = nowYear) := by
  constructor
  · intro h1 h2
    simp [resolveYear, h1, h2]
  · intro h
    simp [resolveYear, h]

/-- C6 witness: December seen in January 2025 resolves to 2024; June seen in
March 2025 resolves to 2025. -/
theorem year_rollback_witness :
    resolveYear 12 2025 1 = 2024 ∧ resolveYear 6 2025 3 = 2025 :=
  ⟨(year_rollback 12 2025 1).1 rfl rfl, (year_rollback 6 2025 3).2 (by decide)⟩

/-- C7. Day-of-month resolution (src/main.go): the first cell's text is
trimmed, split on spaces, and the LAST token is `Atoi`-parsed; "Sun 2"
resolves to day 2, and an unparseable last token is fatal (`none`).  (The
part_000 variant parses the whole trimmed text instead; that divergence is
treated with the variant-equivalence claim.) -/
theorem parseDayOfMonth_last_token :
    (∀ val : String,
      parseDayOfMonth val = goAtoi ((goSplit ' ' (goTrim val)).getLastD "")) ∧
    parseDayOfMonth "Sun 2" = some 2 ∧
    parseDayOfMonth "  Sun 2 " = some 2 ∧
    parseDayOfMonth "Sun X" = none ∧
    parseDayOfMonth "" = none :=
  ⟨fun _ => rfl, by decide, by decide, by decide, by decide⟩

/-- C8 counterexample: the two source files are not extensionally
equivalent.  On a document whose caption is "June 2024" and whose first row
has the cell text "Sun 2", src/main.go's pipeline extracts the day (last
token "2") and produces a workout, while part_000's pipeline runs
`Atoi("Sun 2")`, fails, and dies (`none`). -/
theorem variants_differ_on_document :
    parseCalendar 2024 6
        ⟨some "June 2024",
         [["Sun 2"],
          ["h\nh\nSwim Practice\n123 Main St\nx\nPleasanton\ny\nCA\nz\n6:00 AM\nt"]]⟩ ≠
      parseCalendarAlt 2024 6
        ⟨some "June 2024",
         [["Sun 2"],
          ["h\nh\nSwim Practice\n123 Main St\nx\nPleasanton\ny\nCA\nz\n6:00 AM\nt"]]⟩ := by
  decide

/-- C8 (amended). The two variants implement the same pipeline but are
duplicates only up to two deliberate differences; in particular their
day-of-month parsers disagree: src/main.go parses the last space-delimited
token of the trimmed cell text, part_000 parses the entire trimmed text, so
"Sun 2" yields day 2 in the former and is fatal in the latter. -/
theorem variants_day_parse_divergence :
    parseDayOfMonth "Sun 2" = some 2 ∧ parseDayOfMonthAlt "Sun 2" = none := by
  decide

/-- C10. Rendering an empty workout list still produces the well-formed
VCALENDAR wrapper — VERSION, PRODID and METHOD lines between BEGIN:VCALENDAR
and END:VCALENDAR — and contains zero VEVENT blocks (the rendered text has
no occurrence of "BEGIN:VEVENT", so splitting on it leaves one piece).  The
rendering itself is total; `writeCalendar` can only fail on file
creation. -/
theorem renderCalendar_empty_workouts (now : String) :
    renderCalendar now [] =
      "BEGIN:VCALENDAR\nVERSION:2.0\nPRODID:-//Tri-Valley Triathlon Club//trivalleytriclub.com//\nMETHOD:PUBLISH\nEND:VCALENDAR" ∧
    containsSeq "BEGIN:VEVENT".toList (renderCalendar now []).toList = false := by
  have h : renderCalendar now [] =
      "BEGIN:VCALENDAR\nVERSION:2.0\nPRODID:-//Tri-Valley Triathlon Club//trivalleytriclub.com//\nMETHOD:PUBLISH\nEND:VCALENDAR" := rfl
  exact ⟨h, by rw [show (renderCalendar now []).toList = _ from congrArg String.toList h]; decide⟩

end Tvtccal

